import Mathlib

/-!
Verification of the BeagleBone home-automation controller
(`Domótica/Domotica.py`) against its natural-language specification.

The Python module is shallowly embedded below.  Machine floats are
idealised as exact rationals (all constants in the source — 1.8, 0.25,
20.0, 21.0, 0.2, 0.98 — are exact decimal literals, and none of the
verified properties depends on binary-float rounding; the one delicate
value, `int(2.0 / 0.2)`, evaluates to 10 both over IEEE doubles and over
the rationals).  The mutable global dictionary `latest` becomes the
structure `SysState`; hardware reads become explicit input parameters;
each call to `set_output` additionally records the hardware write it
performs as a `Cmd` value, so that claims about re-issued writes can be
stated.
-/

namespace Domotica

/-! Configuration constants (Domotica.py lines 22-32) -/

def ADC_VREF : ℚ := 1.8
def DIV_R1 : ℚ := 1000
def DIV_R2 : ℚ := 1000
def CAL_FACTOR : ℚ := 0.25
def CAL_OFFSET : ℚ := 0
def HEAT_ON_THRESHOLD : ℚ := 20
def HEAT_OFF_THRESHOLD : ℚ := 21
def BUTTON_PRESSED_MIN_S : ℚ := 2
/-- The poll interval passed to `background_reader` in the `__main__`
block (line 425): `args=(0.2,)`. -/
def MAIN_POLL_INTERVAL : ℚ := 0.2

/-! The shared state dictionary `latest` (lines 37-47) -/

/-- The global `latest` dictionary.  `light` stores the raw sensor value
exactly as the code does: `some 1` = dark, `some 0` = bright, `none` =
unknown.  The two outputs are the cached LED mirror `latest["outputs"]`,
with `false` for `0` and `true` for `1`. -/
structure SysState where
  temp_c : Option ℚ
  light : Option ℕ
  ts : Option ℚ
  saturated : Bool
  car_parked : Bool
  button_pressed : Bool
  led1 : Bool
  led2 : Bool
  manual_override_heating : Bool
  light_timer_until : ℚ
deriving DecidableEq, Repr

/-- The initial contents of `latest` (lines 37-47). -/
def initialLatest : SysState :=
  { temp_c := none, light := none, ts := none, saturated := false,
    car_parked := false, button_pressed := false,
    led1 := false, led2 := false, manual_override_heating := false,
    light_timer_until := 0 }

/-! Outputs and hardware writes -/

/-- The two outputs of `LED_PINS`: `led1` is the light, `led2` the
heater. -/
inductive OutName where
  | led1
  | led2
deriving DecidableEq, Repr

/-- One hardware write performed by `set_output` (a `GPIO.output` call
plus the update of the cached mirror). -/
structure Cmd where
  name : OutName
  value : Bool
deriving DecidableEq, Repr

/-- Embeds `set_output(name, value, manual)` (lines 167-180).  The `manual`
argument is accepted and ignored, exactly as in the source.  Unknown
output names cannot arise because `OutName` ranges over the two valid
names.  The returned `Cmd` records the write that was issued. -/
def set_output (name : OutName) (value : Bool) (manual : Bool) (s : SysState) :
    SysState × Cmd :=
  match name with
  | .led1 => ({ s with led1 := value }, ⟨.led1, value⟩)
  | .led2 => ({ s with led2 := value }, ⟨.led2, value⟩)

/-! Heating hysteresis (`apply_heating_logic`, lines 183-199) -/

/-- Embeds `apply_heating_logic(temp)` (lines 183-199), returning the updated
state together with the list of hardware writes issued during the call. -/
def apply_heating_logic (temp : Option ℚ) (s : SysState) : SysState × List Cmd :=
  if s.manual_override_heating then (s, [])
  else
    match temp with
    | none => (s, [])
    | some t =>
      if t < HEAT_ON_THRESHOLD ∧ s.led2 = false then
        ((set_output .led2 true false s).1, [(set_output .led2 true false s).2])
      else if HEAT_OFF_THRESHOLD ≤ t ∧ s.led2 = true then
        ((set_output .led2 false false s).1, [(set_output .led2 false false s).2])
      else (s, [])

/-- C1: the heater output transitions off to on only when the
temperature is strictly below `HEAT_ON_THRESHOLD` while the output is
off, and on to off only when the temperature is at or above
`HEAT_OFF_THRESHOLD` while the output is on; a null temperature or the
manual heating override leaves the state untouched; consequently a
temperature sequence that stays strictly between the two thresholds
never changes the heater output. -/
theorem heating_transitions (temp : Option ℚ) (s : SysState) :
    ((apply_heating_logic temp s).1.led2 ≠ s.led2 →
      s.manual_override_heating = false ∧ ∃ t, temp = some t ∧
        ((s.led2 = false ∧ (apply_heating_logic temp s).1.led2 = true ∧
            t < HEAT_ON_THRESHOLD) ∨
         (s.led2 = true ∧ (apply_heating_logic temp s).1.led2 = false ∧
            HEAT_OFF_THRESHOLD ≤ t))) ∧
    (∀ ts : List ℚ,
      (∀ t ∈ ts, HEAT_ON_THRESHOLD < t ∧ t < HEAT_OFF_THRESHOLD) →
      (ts.foldl (fun st t => (apply_heating_logic (some t) st).1) s).led2 = s.led2) ∧
    (s.manual_override_heating = true ∨ temp = none →
      (apply_heating_logic temp s).1 = s) := by
  have hnoop : s.manual_override_heating = true ∨ temp = none →
      (apply_heating_logic temp s).1 = s := by
    intro h
    unfold apply_heating_logic
    rcases h with h | h
    · simp [h]
    · subst h; split_ifs <;> rfl
  refine ⟨?_, ?_, hnoop⟩
  · intro hne
    by_cases hov : s.manual_override_heating = true
    · exact absurd (congrArg SysState.led2 (hnoop (Or.inl hov))) hne
    · cases temp with
      | none => exact absurd (congrArg SysState.led2 (hnoop (Or.inr rfl))) hne
      | some t =>
        refine ⟨by simpa using hov, t, rfl, ?_⟩
        simp only [apply_heating_logic, if_neg hov] at hne ⊢
        by_cases hc1 : t < HEAT_ON_THRESHOLD ∧ s.led2 = false
        · simp only [if_pos hc1] at hne ⊢
          exact Or.inl ⟨hc1.2, by simp [set_output], hc1.1⟩
        · simp only [if_neg hc1] at hne ⊢
          by_cases hc2 : HEAT_OFF_THRESHOLD ≤ t ∧ s.led2 = true
          · simp only [if_pos hc2] at hne ⊢
            exact Or.inr ⟨hc2.2, by simp [set_output], hc2.1⟩
          · simp only [if_neg hc2] at hne; exact absurd rfl hne
  · clear hnoop
    have hstep : ∀ (st : SysState) (t : ℚ),
        HEAT_ON_THRESHOLD < t → t < HEAT_OFF_THRESHOLD →
        (apply_heating_logic (some t) st).1 = st := by
      intro st t h1 h2
      have k1 : ¬t < HEAT_ON_THRESHOLD := by linarith
      have k2 : ¬HEAT_OFF_THRESHOLD ≤ t := by linarith
      simp [apply_heating_logic, k1, k2]
    intro ts
    induction ts generalizing s with
    | nil => intro _; rfl
    | cons t rest ih =>
      intro hts
      have h0 := hts t (by simp)
      simp only [List.foldl_cons, hstep s t h0.1 h0.2]
      exact ih s fun u hu => hts u (by simp [hu])

/-- Witness for `heating_transitions` at concrete inputs: at 19 °C with
the heater off the transition happens and the conditions hold; a
sequence of readings strictly inside the hysteresis band leaves the
output unchanged; a null reading is a no-op. -/
theorem heating_transitions_witness :
    (initialLatest.manual_override_heating = false ∧ ∃ t, (some (19 : ℚ)) = some t ∧
      ((initialLatest.led2 = false ∧
          (apply_heating_logic (some 19) initialLatest).1.led2 = true ∧
          t < HEAT_ON_THRESHOLD) ∨
       (initialLatest.led2 = true ∧
          (apply_heating_logic (some 19) initialLatest).1.led2 = false ∧
          HEAT_OFF_THRESHOLD ≤ t))) ∧
    (([(41 : ℚ)/2].foldl (fun st t => (apply_heating_logic (some t) st).1)
        initialLatest).led2 = initialLatest.led2) ∧
    (apply_heating_logic none initialLatest).1 = initialLatest := by
  have h19 := heating_transitions (some 19) initialLatest
  have hnone := heating_transitions none initialLatest
  refine ⟨h19.1 (by decide), h19.2.1 [(41 : ℚ)/2] ?_, hnone.2.2 (Or.inr rfl)⟩
  intro t ht
  simp only [List.mem_singleton] at ht
  subst ht
  constructor <;> [norm_num [HEAT_ON_THRESHOLD]; norm_num [HEAT_OFF_THRESHOLD]]

/-! Light priority rules (`apply_light_logic`, lines 202-233) -/

/-- Embeds `apply_light_logic(now)` (lines 202-233), returning the updated state
together with the list of hardware writes issued during the call.  The
four `if` branches are, in order: car present and dark; light timer
active (a nonzero deadline strictly in the future, mirroring the Python
truthiness test `timer_until and timer_until > now`); sensor bright;
dark without a car.  Any state matching no branch is left untouched. -/
def apply_light_logic (now : ℚ) (s : SysState) : SysState × List Cmd :=
  if s.car_parked = true ∧ s.light = some 1 then
    ((set_output .led1 true false s).1, [(set_output .led1 true false s).2])
  else if s.light_timer_until ≠ 0 ∧ now < s.light_timer_until then
    ((set_output .led1 true false s).1, [(set_output .led1 true false s).2])
  else if s.light = some 0 then
    ((set_output .led1 false false s).1, [(set_output .led1 false false s).2])
  else if s.light = some 1 ∧ s.car_parked = false then
    ((set_output .led1 false false s).1, [(set_output .led1 false false s).2])
  else (s, [])

/-- One pass of the Control Engine as invoked by the poll loop
(lines 273-274): `apply_heating_logic(t)` followed by
`apply_light_logic(ts)`. -/
def controlEngine (temp : Option ℚ) (now : ℚ) (s : SysState) : SysState × List Cmd :=
  let h := apply_heating_logic temp s
  let l := apply_light_logic now h.1
  (l.1, h.2 ++ l.2)

/-- The heating block only ever changes the `led2` field. -/
theorem heat_shape (temp : Option ℚ) (s : SysState) :
    ∃ b, (apply_heating_logic temp s).1 = { s with led2 := b } := by
  cases temp <;> simp only [apply_heating_logic] <;> split_ifs <;>
    exact ⟨_, rfl⟩

/-- The light block only ever changes the `led1` field. -/
theorem light_shape (now : ℚ) (s : SysState) :
    ∃ b, (apply_light_logic now s).1 = { s with led1 := b } := by
  simp only [apply_light_logic]
  split_ifs <;> exact ⟨_, rfl⟩

/-- Re-running the heating block on its own output issues no further
write and leaves the state unchanged. -/
theorem heat_heat (temp : Option ℚ) (s : SysState) :
    apply_heating_logic temp (apply_heating_logic temp s).1 =
      ((apply_heating_logic temp s).1, []) := by
  by_cases hov : s.manual_override_heating = true
  · simp [apply_heating_logic, hov]
  · cases temp with
    | none => simp [apply_heating_logic, hov]
    | some t =>
      by_cases hc1 : t < HEAT_ON_THRESHOLD ∧ s.led2 = false
      · have k : ¬HEAT_OFF_THRESHOLD ≤ t := by
          have := hc1.1
          unfold HEAT_ON_THRESHOLD HEAT_OFF_THRESHOLD at *
          linarith
        simp [apply_heating_logic, hov, hc1, set_output, k]
      · by_cases hc2 : HEAT_OFF_THRESHOLD ≤ t ∧ s.led2 = true
        · have k : ¬t < HEAT_ON_THRESHOLD := by
            have := hc2.1
            unfold HEAT_ON_THRESHOLD HEAT_OFF_THRESHOLD at *
            linarith
          simp [apply_heating_logic, hov, hc1, hc2, set_output, k]
        · simp [apply_heating_logic, hov, hc1, hc2]

/-- The heating block reads only `led2` and the override flag, so if it
issued no write at `s` it issues none at any state agreeing on those. -/
theorem heat_congr (temp : Option ℚ) (s s' : SysState)
    (h2 : s'.led2 = s.led2)
    (hm : s'.manual_override_heating = s.manual_override_heating)
    (hnil : (apply_heating_logic temp s).2 = []) :
    apply_heating_logic temp s' = (s', []) := by
  by_cases hov : s.manual_override_heating = true
  · simp [apply_heating_logic, hm, hov]
  · cases temp with
    | none => simp [apply_heating_logic, hm, hov]
    | some t =>
      by_cases hc1 : t < HEAT_ON_THRESHOLD ∧ s.led2 = false
      · exfalso; simp [apply_heating_logic, hov, hc1, set_output] at hnil
      · by_cases hc2 : HEAT_OFF_THRESHOLD ≤ t ∧ s.led2 = true
        · exfalso
          simp [apply_heating_logic, hov, hc1, hc2, set_output] at hnil
        · have hc1' : ¬(t < HEAT_ON_THRESHOLD ∧ s'.led2 = false) := by
            rw [h2]; exact hc1
          have hc2' : ¬(HEAT_OFF_THRESHOLD ≤ t ∧ s'.led2 = true) := by
            rw [h2]; exact hc2
          simp [apply_heating_logic, hm, hov, hc1', hc2']

/-- Re-running the light block on its own output reproduces the state
(though, unlike the heating block, it re-issues the write). -/
theorem light_fix (now : ℚ) (s : SysState) :
    (apply_light_logic now (apply_light_logic now s).1).1 =
      (apply_light_logic now s).1 := by
  by_cases h0 : s.car_parked = true ∧ s.light = some 1
  · simp [apply_light_logic, h0, set_output]
  · by_cases h1 : s.light_timer_until ≠ 0 ∧ now < s.light_timer_until
    · simp [apply_light_logic, h0, h1, set_output]
    · by_cases h2 : s.light = some 0
      · simp [apply_light_logic, h0, h1, h2, set_output]
      · by_cases h3 : s.light = some 1 ∧ s.car_parked = false
        · simp [apply_light_logic, h0, h1, h2, h3, set_output]
        · simp [apply_light_logic, h0, h1, h2, h3]

/-- C2 counterexample: with a car parked in the dark, the second
Control-Engine pass over unchanged inputs re-issues the identical
`led1 := on` hardware write, so the second evaluation does issue an
output command. -/
theorem controlEngine_second_eval_writes :
    (controlEngine none 0 (controlEngine none 0
        { initialLatest with car_parked := true, light := some 1 }).1).2 =
      [⟨.led1, true⟩] ∧
    (controlEngine none 0 (controlEngine none 0
        { initialLatest with car_parked := true, light := some 1 }).1).2 ≠
      [] := by
  constructor <;> decide

/-- C2 (amended): a second Control-Engine pass with unchanged inputs
leaves the state unchanged, and the heating block issues no write on the
second pass; the light block, however, re-issues its (identical) write
whenever one of its rules fires, so the engine as a whole is idempotent
on state but not free of repeated hardware writes. -/
theorem controlEngine_state_idempotent (temp : Option ℚ) (now : ℚ) (s : SysState) :
    (controlEngine temp now (controlEngine temp now s).1).1 =
      (controlEngine temp now s).1 ∧
    (apply_heating_logic temp (controlEngine temp now s).1).2 = [] := by
  have hh := heat_heat temp s
  obtain ⟨b, hb⟩ := light_shape now (apply_heating_logic temp s).1
  have hcongr := heat_congr temp (apply_heating_logic temp s).1
      (apply_light_logic now (apply_heating_logic temp s).1).1
      (by rw [hb]) (by rw [hb]) (by rw [hh])
  constructor
  · show (apply_light_logic now (apply_heating_logic temp
        (apply_light_logic now (apply_heating_logic temp s).1).1).1).1 =
      (apply_light_logic now (apply_heating_logic temp s).1).1
    rw [hcongr]
    exact light_fix now (apply_heating_logic temp s).1
  · show (apply_heating_logic temp
        (apply_light_logic now (apply_heating_logic temp s).1).1).2 = []
    rw [hcongr]

/-! The four light priority rules as separate guards (for C5) -/

/-- The guard of each of the four priority rules of `apply_light_logic`,
copied verbatim from the branch conditions (lines 216, 221, 226, 231).
Indices beyond 3 name no rule. -/
def lightGuard (now : ℚ) (s : SysState) : ℕ → Prop
  | 0 => s.car_parked = true ∧ s.light = some 1
  | 1 => s.light_timer_until ≠ 0 ∧ now < s.light_timer_until
  | 2 => s.light = some 0
  | 3 => s.light = some 1 ∧ s.car_parked = false
  | _ + 4 => False

instance lightGuardDec (now : ℚ) (s : SysState) :
    ∀ i : ℕ, Decidable (lightGuard now s i)
  | 0 => inferInstanceAs (Decidable (_ ∧ _))
  | 1 => inferInstanceAs (Decidable (_ ∧ _))
  | 2 => inferInstanceAs (Decidable (_ = _))
  | 3 => inferInstanceAs (Decidable (_ ∧ _))
  | _ + 4 => isFalse fun h => h

/-- Rule `i` fires when its guard holds and no higher-priority guard
does — first match wins, as in the if/elif chain of the source. -/
def lightRuleFires (now : ℚ) (s : SysState) (i : ℕ) : Prop :=
  lightGuard now s i ∧ ∀ j < i, ¬lightGuard now s j

instance lightRuleFiresDec (now : ℚ) (s : SysState) (i : ℕ) :
    Decidable (lightRuleFires now s i) :=
  inferInstanceAs (Decidable (_ ∧ _))

/-- C5 counterexample: with the light sensor unknown and the timer
inactive, none of the four priority rules fires (whatever the presence
flag), and the light logic leaves the state untouched — so the priority
order is not total over `{presence} × {dark, bright, unknown} ×
{timer-active}`. -/
theorem lightRules_not_total :
    (∀ i : ℕ, ¬lightRuleFires 0 { initialLatest with car_parked := true } i) ∧
    apply_light_logic 0 { initialLatest with car_parked := true } =
      ({ initialLatest with car_parked := true }, []) := by
  constructor
  · intro i hi
    rcases i with _ | _ | _ | _ | n
    · revert hi; decide
    · revert hi; decide
    · revert hi; decide
    · revert hi; decide
    · exact hi.1
  · decide

/-- C5 (amended): whenever the light sensor reading is defined (bright
or dark) or the light timer is active, exactly one of the four priority
rules fires, and the fired rule determines the result of
`apply_light_logic`: rules 0 and 1 force the light on, rules 2 and 3
force it off, each issuing exactly that write.  In the remaining case —
unknown sensor with an inactive timer — no rule fires and the state is
left unchanged. -/
theorem lightRules_total (now : ℚ) (s : SysState)
    (h : s.light = some 0 ∨ s.light = some 1 ∨
      (s.light_timer_until ≠ 0 ∧ now < s.light_timer_until)) :
    (∃! i : ℕ, lightRuleFires now s i) ∧
    (∀ i : ℕ, lightRuleFires now s i →
      apply_light_logic now s =
        ({ s with led1 := decide (i ≤ 1) }, [⟨.led1, decide (i ≤ 1)⟩])) := by
  have huniq : ∀ i j : ℕ, lightRuleFires now s i → lightRuleFires now s j →
      i = j := by
    intro i j hi hj
    rcases Nat.lt_trichotomy i j with hij | hij | hij
    · exact absurd hi.1 (hj.2 i hij)
    · exact hij
    · exact absurd hj.1 (hi.2 j hij)
  have hex : ∃ i, lightRuleFires now s i := by
    by_cases h0 : lightGuard now s 0
    · exact ⟨0, h0, fun j hj => absurd hj (Nat.not_lt_zero j)⟩
    · by_cases h1 : lightGuard now s 1
      · refine ⟨1, h1, fun j hj => ?_⟩
        have : j = 0 := by omega
        subst this; exact h0
      · by_cases h2 : lightGuard now s 2
        · refine ⟨2, h2, fun j hj => ?_⟩
          rcases (by omega : j = 0 ∨ j = 1) with rfl | rfl
          · exact h0
          · exact h1
        · by_cases h3 : lightGuard now s 3
          · refine ⟨3, h3, fun j hj => ?_⟩
            rcases (by omega : j = 0 ∨ j = 1 ∨ j = 2) with rfl | rfl | rfl
            · exact h0
            · exact h1
            · exact h2
          · exfalso
            rcases h with hl | hl | ht
            · exact h2 hl
            · cases hcar : s.car_parked with
              | true => exact h0 ⟨hcar, hl⟩
              | false => exact h3 ⟨hl, hcar⟩
            · exact h1 ht
  refine ⟨⟨hex.choose, hex.choose_spec, fun j hj => huniq j hex.choose hj hex.choose_spec⟩, ?_⟩
  intro i hi
  rcases i with _ | _ | _ | _ | n
  · have g0 : s.car_parked = true ∧ s.light = some 1 := hi.1
    simp [apply_light_logic, g0.1, g0.2, set_output]
  · have g1 : s.light_timer_until ≠ 0 ∧ now < s.light_timer_until := hi.1
    have ng0 : ¬(s.car_parked = true ∧ s.light = some 1) := hi.2 0 (by omega)
    simp [apply_light_logic, ng0, g1.1, g1.2, set_output]
  · have g2 : s.light = some 0 := hi.1
    have ng0 : ¬(s.car_parked = true ∧ s.light = some 1) := hi.2 0 (by omega)
    have ng1 : ¬(s.light_timer_until ≠ 0 ∧ now < s.light_timer_until) :=
      hi.2 1 (by omega)
    simp [apply_light_logic, ng0, ng1, g2, set_output]
  · have g3 : s.light = some 1 ∧ s.car_parked = false := hi.1
    have ng1 : ¬(s.light_timer_until ≠ 0 ∧ now < s.light_timer_until) :=
      hi.2 1 (by omega)
    simp [apply_light_logic, ng1, g3.1, g3.2, set_output]
  · exact absurd hi.1 fun h => h

/-- Witness for `lightRules_total` at a concrete state: with a bright
sensor reading, exactly one rule fires, and any fired rule yields the
stated deterministic result. -/
theorem lightRules_total_witness :
    (∃! i : ℕ, lightRuleFires 0 { initialLatest with light := some 0 } i) ∧
    (∀ i : ℕ, lightRuleFires 0 { initialLatest with light := some 0 } i →
      apply_light_logic 0 { initialLatest with light := some 0 } =
        ({ { initialLatest with light := some 0 } with led1 := decide (i ≤ 1) },
          [⟨.led1, decide (i ≤ 1)⟩])) :=
  lightRules_total 0 { initialLatest with light := some 0 } (Or.inl rfl)

/-! The light-pulse endpoint (`api_light_pulse`, lines 366-396) -/

/-- The JSON body answered by `api_light_pulse`: the stored deadline and
the chosen duration (the `note` field of the occupied branch carries no
state and is omitted). -/
structure PulseResp where
  light_timer_until : ℚ
  duration : ℕ
deriving DecidableEq, Repr

/-- Embeds `api_light_pulse` (lines 366-396): `none` models the 400 error for
an unknown light sensor; otherwise the endpoint branches on bright
(`light == 0`), dark without a car, and dark with a car, updating
`light_timer_until` and `led1` through `set_output` as the code does. -/
def api_light_pulse (now : ℚ) (s : SysState) : Option (SysState × PulseResp) :=
  match s.light with
  | none => none
  | some l =>
    if l = 0 then
      some ((set_output .led1 true false
          { s with light_timer_until := now + 10 }).1, ⟨now + 10, 10⟩)
    else
      if s.car_parked = false then
        some ((set_output .led1 true false
            { s with light_timer_until := now + 20 }).1, ⟨now + 20, 20⟩)
      else
        some (s, ⟨s.light_timer_until, 0⟩)

/-- C6: with a bright sensor the pulse endpoint answers duration 10 and
stores the deadline `now + 10`; dark without a car answers duration 20
with deadline `now + 20`; dark with a car answers duration 0 and leaves
the stored deadline (and the whole state) unchanged. -/
theorem api_light_pulse_spec (now : ℚ) (s : SysState) :
    (s.light = some 0 →
      api_light_pulse now s =
        some ({ s with light_timer_until := now + 10, led1 := true },
          ⟨now + 10, 10⟩)) ∧
    (s.light = some 1 → s.car_parked = false →
      api_light_pulse now s =
        some ({ s with light_timer_until := now + 20, led1 := true },
          ⟨now + 20, 20⟩)) ∧
    (s.light = some 1 → s.car_parked = true →
      api_light_pulse now s = some (s, ⟨s.light_timer_until, 0⟩)) := by
  refine ⟨?_, ?_, ?_⟩
  · intro hl
    simp [api_light_pulse, hl, set_output]
  · intro hl hcar
    simp [api_light_pulse, hl, hcar, set_output]
  · intro hl hcar
    simp [api_light_pulse, hl, hcar, set_output]

/-- Witness for `api_light_pulse_spec`: the three branches evaluated at
concrete states (bright; dark without car; dark with car). -/
theorem api_light_pulse_spec_witness :
    (api_light_pulse 0 { initialLatest with light := some 0 } =
      some ({ ({ initialLatest with light := some 0 }) with
          light_timer_until := (0 : ℚ) + 10, led1 := true }, ⟨(0 : ℚ) + 10, 10⟩)) ∧
    (api_light_pulse 0 { initialLatest with light := some 1 } =
      some ({ ({ initialLatest with light := some 1 }) with
          light_timer_until := (0 : ℚ) + 20, led1 := true }, ⟨(0 : ℚ) + 20, 20⟩)) ∧
    (api_light_pulse 0 { initialLatest with light := some 1, car_parked := true } =
      some ({ initialLatest with light := some 1, car_parked := true },
        ⟨(0 : ℚ), 0⟩)) :=
  ⟨(api_light_pulse_spec 0 _).1 rfl,
   (api_light_pulse_spec 0 _).2.1 rfl rfl,
   (api_light_pulse_spec 0 _).2.2 rfl rfl⟩

/-! Temperature acquisition (`read_lm35_temperature`, lines 73-116) -/

/-- The hardware outcome of one sampling iteration of the acquisition
loop (lines 88-101): `norm` is the result of `ADC.read` (`none` when it
raised or returned `None`), `raw` the result of the `ADC.read_raw`
fallback (`none` when it raised). -/
structure AdcSample where
  norm : Option ℚ
  raw : Option ℚ
deriving DecidableEq, Repr

/-- The voltage appended to `vals` for one sample (lines 89-100): the
normalised reading scaled by the reference voltage; on failure the raw
reading scaled by `4095`; on a second failure the substituted `0.0`. -/
def measuredV (a : AdcSample) : ℚ :=
  match a.norm with
  | some v => v * ADC_VREF
  | none =>
    match a.raw with
    | some r => (r / 4095) * ADC_VREF
    | none => 0

/-- Embeds `divider_ratio` (line 83). -/
def divider_ratio : ℚ := if DIV_R1 ≤ 0 then 1 else DIV_R2 / (DIV_R1 + DIV_R2)

/-- The raw mean `sum(vals) / len(vals)` (line 107), before divider
compensation. -/
def meanMeasuredV (samples : List AdcSample) : ℚ :=
  (samples.map measuredV).sum / (samples.map measuredV).length

/-- Bankers rounding (as performed by Python) of a rational to the nearest integer. -/
def roundHalfEven (q : ℚ) : ℤ :=
  if q - ⌊q⌋ < 1 / 2 then ⌊q⌋
  else if 1 / 2 < q - ⌊q⌋ then ⌊q⌋ + 1
  else if 2 ∣ ⌊q⌋ then ⌊q⌋ else ⌊q⌋ + 1

/-- Embeds `round(x, 2)` (line 116), idealised over the rationals. -/
def round2 (q : ℚ) : ℚ := (roundHalfEven (q * 100) : ℚ) / 100

/-- Embeds `read_lm35_temperature` (lines 73-116).  The `samples` list carries
the hardware outcome of each of the `samples` loop iterations; the
simulation branch (line 80) is selected by `hwAvailable = false`.  Note that
`vals` receives an entry for every iteration — a doubly failed sample
contributes the substituted `0.0` — so `vals` is empty exactly when the
sample list is. -/
def read_lm35_temperature (hwAvailable : Bool) (samples : List AdcSample) :
    Option ℚ × Bool :=
  if !hwAvailable then (some 25, false)
  else if samples = [] then (none, false)
  else
    let mean := meanMeasuredV samples
    let saturated := decide (ADC_VREF * 0.98 ≤ mean)
    let actual_v := if divider_ratio ≤ 0 then mean else mean / divider_ratio
    let temp_raw := (actual_v * 1000) / 10
    let temp_cal := temp_raw * CAL_FACTOR + CAL_OFFSET
    (some (round2 temp_cal), saturated)

/-- C9: the saturation flag is exactly the test `raw mean ≥ 98% of the
reference voltage`, evaluated on the mean of the measured voltages
before divider compensation; below the threshold it is `false`. -/
theorem saturation_iff_raw_mean (samples : List AdcSample) (h : samples ≠ []) :
    (read_lm35_temperature true samples).2 = true ↔
      ADC_VREF * 0.98 ≤ meanMeasuredV samples := by
  simp [read_lm35_temperature, h]

/-- Witness for `saturation_iff_raw_mean`: a single full-scale
normalised sample saturates. -/
theorem saturation_iff_raw_mean_witness :
    (read_lm35_temperature true [⟨some 1, none⟩]).2 = true ↔
      ADC_VREF * 0.98 ≤ meanMeasuredV [⟨some 1, none⟩] :=
  saturation_iff_raw_mean [⟨some 1, none⟩] (by decide)

/-- Shared computation: a nonempty acquisition in which every sample
failed on both read paths yields `(some 0, false)`. -/
theorem read_lm35_all_failed_aux (samples : List AdcSample)
    (h : samples ≠ [])
    (hfail : ∀ a ∈ samples, a.norm = none ∧ a.raw = none) :
    read_lm35_temperature true samples = (some 0, false) := by
  have hmean : meanMeasuredV samples = 0 := by
    have hz : (samples.map measuredV).sum = 0 := by
      apply List.sum_eq_zero
      intro x hx
      rcases List.mem_map.mp hx with ⟨a, ha, rfl⟩
      have := hfail a ha
      simp [measuredV, this.1, this.2]
    simp [meanMeasuredV, hz]
  have hne : ¬samples = [] := h
  simp only [read_lm35_temperature, Bool.not_true, Bool.false_eq_true,
    if_neg hne, hmean, if_false, Prod.mk.injEq, Option.some.injEq,
    decide_eq_false_iff_not]
  constructor
  · norm_num [divider_ratio, DIV_R1, DIV_R2, CAL_FACTOR, CAL_OFFSET, round2,
      roundHalfEven]
  · norm_num [ADC_VREF]

/-- C7 counterexample: when every sample of an acquisition fails on both
read paths, the function does not return `(null, false)` — each failed
sample contributes a substituted `0.0` volt reading, and the call
returns the numeric temperature derived from those zeros, `(some 0,
false)`. -/
theorem read_temperature_all_failed_counterexample :
    read_lm35_temperature true (List.replicate 5 ⟨none, none⟩) =
      (some 0, false) ∧
    (read_lm35_temperature true (List.replicate 5 ⟨none, none⟩)).1 ≠ none := by
  have h := read_lm35_all_failed_aux (List.replicate 5 ⟨none, none⟩)
    (by decide) (by decide)
  exact ⟨h, by rw [h]; simp⟩

/-- C7 (amended): when every raw sample of a nonempty acquisition fails,
each contributes the substituted `0.0` V, so `read_lm35_temperature`
returns the numeric temperature computed from zero voltages —
`(some 0, false)` with the shipped calibration — rather than
`(null, false)`; the `(null, false)` branch is reached only when the
sample list is empty. -/
theorem read_temperature_all_failed (samples : List AdcSample)
    (h : samples ≠ [])
    (hfail : ∀ a ∈ samples, a.norm = none ∧ a.raw = none) :
    read_lm35_temperature true samples = (some 0, false) ∧
    read_lm35_temperature true [] = (none, false) :=
  ⟨read_lm35_all_failed_aux samples h hfail, by simp [read_lm35_temperature]⟩

/-- Witness for `read_temperature_all_failed` at the default sample
count of five. -/
theorem read_temperature_all_failed_witness :
    read_lm35_temperature true (List.replicate 5 ⟨none, none⟩) =
      (some 0, false) ∧
    read_lm35_temperature true [] = (none, false) :=
  read_temperature_all_failed (List.replicate 5 ⟨none, none⟩) (by decide)
    (by decide)

/-! The car-presence endpoint (`api_car`, lines 398-416) -/

/-- Embeds `api_car` for an accepted request body `{"car": v}` (lines 409-416):
`val = 1 if int(v) else 0`, then `car_parked = not bool(val)` — the
deliberately inverted polarity noted in the docstring of the code itself. -/
def api_car (v : ℤ) (s : SysState) : SysState :=
  let val : ℤ := if v ≠ 0 then 1 else 0
  { s with car_parked := !decide (val ≠ 0) }

/-- C10: an accepted car command stores the negation of the truthiness of
the body value — `car_parked` becomes `v = 0`; in particular sending 1
clears presence and sending 0 sets it. -/
theorem api_car_inverts (v : ℤ) (s : SysState) :
    (api_car v s).car_parked = decide (v = 0) ∧
    (api_car 1 s).car_parked = false ∧
    (api_car 0 s).car_parked = true := by
  refine ⟨?_, by simp [api_car], by simp [api_car]⟩
  by_cases hv : v = 0 <;> simp [api_car, hv]

/-! Process startup (`__main__`, lines 419-430) -/

/-- Result of the startup sequence: whether the process proceeds to
start the background poller and the web server. -/
inductive StartupResult where
  | started
  | rejected
deriving DecidableEq, Repr

/-- The `__main__` block (lines 419-430): it runs `hw_setup`, starts the
`background_reader` thread and launches the server unconditionally.  The
function is parameterised by the configuration values (heating
thresholds and poll interval) to record that no validation of any of
them exists anywhere on the startup path: every configuration starts the
poller. -/
def mainStartup (tOn tOff pollInterval : ℚ) : StartupResult :=
  .started

/-- C8 counterexample: a configuration with `T_on ≥ T_off` and a
non-positive poll interval is not rejected — startup still begins
polling. -/
theorem startup_accepts_bad_config :
    mainStartup 21 20 (-1) = .started ∧ (20 : ℚ) ≤ 21 ∧ (-1 : ℚ) ≤ 0 := by
  refine ⟨rfl, by norm_num, by norm_num⟩

/-- C8 (amended): the startup path performs no configuration validation
at all — `mainStartup` starts the poller for every configuration; the
invariant `T_on < T_off` (and a positive poll interval) holds for the
shipped constants by construction, not through any startup check. -/
theorem startup_never_rejects :
    (∀ tOn tOff pollInterval : ℚ,
      mainStartup tOn tOff pollInterval = .started) ∧
    HEAT_ON_THRESHOLD < HEAT_OFF_THRESHOLD ∧ (0 : ℚ) < MAIN_POLL_INTERVAL := by
  refine ⟨fun _ _ _ => rfl, ?_, ?_⟩
  · norm_num [HEAT_ON_THRESHOLD, HEAT_OFF_THRESHOLD]
  · norm_num [MAIN_POLL_INTERVAL]

/-! The background poller (`background_reader`, lines 236-277) -/

/-- The sensor readings obtained at the top of one poll tick
(lines 251-254): `(t, sat) = read_lm35_temperature()`, `l =
read_light()`, `btn = read_button_pressed()`, `ts = time.time()`. -/
structure SensorInput where
  temp : Option ℚ
  sat : Bool
  light : Option ℕ
  btn : Bool
  ts : ℚ
deriving DecidableEq, Repr

/-- Embeds `required_button_count` (line 246):
`int(BUTTON_PRESSED_MIN_S / interval) if interval > 0 else 1`.  For a
positive interval the Python truncation coincides with the floor, since
both operands are positive. -/
def required_button_count (interval : ℚ) : ℤ :=
  if 0 < interval then ⌊BUTTON_PRESSED_MIN_S / interval⌋ else 1

/-- Modelled from the spec: the required press count as the claim states
it — the floor of `press_threshold_seconds / poll_interval_seconds` with
a minimum of 1.  Used only to compare the formula of the claim against
`required_button_count`. -/
def requiredPressCountClaim (interval : ℚ) : ℤ :=
  max ⌊BUTTON_PRESSED_MIN_S / interval⌋ 1

/-- One iteration of the `while True` loop of `background_reader`
(lines 248-277), on the pair (local `button_counter`, `latest`):
store the fresh readings, update the counter, set `car_parked` once the
counter reaches the required count, then run both Control-Engine rule
blocks.  The issued hardware writes are returned alongside. -/
def background_tick (req : ℤ) (p : ℕ × SysState) (i : SensorInput) :
    (ℕ × SysState) × List Cmd :=
  let s1 := { p.2 with temp_c := i.temp, light := i.light, ts := some i.ts,
                       saturated := i.sat, button_pressed := i.btn }
  let counter := if i.btn then p.1 + 1 else 0
  let s2 := if req ≤ (counter : ℤ) then { s1 with car_parked := true } else s1
  let h := apply_heating_logic i.temp s2
  let l := apply_light_logic i.ts h.1
  ((counter, l.1), h.2 ++ l.2)

/-- The poll loop run over a finite list of sensor readings. -/
def backgroundRun (req : ℤ) (p : ℕ × SysState) (inputs : List SensorInput) :
    ℕ × SysState :=
  inputs.foldl (fun q i => (background_tick req q i).1) p

/-- A true-run detector: the list starts with `n` consecutive `true`s. -/
def startsWithTrues : ℕ → List Bool → Bool
  | 0, _ => true
  | _ + 1, [] => false
  | n + 1, b :: l => b && startsWithTrues n l

/-- The list contains somewhere a run of `n` consecutive `true`s. -/
def containsTrueRun (n : ℕ) : List Bool → Bool
  | [] => decide (n = 0)
  | b :: l => startsWithTrues n (b :: l) || containsTrueRun n l

/-- The heating block never touches `car_parked`. -/
theorem heating_car (temp : Option ℚ) (s : SysState) :
    (apply_heating_logic temp s).1.car_parked = s.car_parked := by
  obtain ⟨b, hb⟩ := heat_shape temp s
  rw [hb]

/-- The light block never touches `car_parked`. -/
theorem light_car (now : ℚ) (s : SysState) :
    (apply_light_logic now s).1.car_parked = s.car_parked := by
  obtain ⟨b, hb⟩ := light_shape now s
  rw [hb]

/-- The counter after one tick: increment on a pressed button, reset to
0 otherwise. -/
theorem tick_counter (req : ℤ) (p : ℕ × SysState) (i : SensorInput) :
    (background_tick req p i).1.1 = if i.btn then p.1 + 1 else 0 := by
  simp only [background_tick]

/-- Value of `car_parked` after one tick: set once the new counter reaches the
required count, otherwise carried over. -/
theorem tick_car (req : ℤ) (p : ℕ × SysState) (i : SensorInput) :
    (background_tick req p i).1.2.car_parked =
      (if req ≤ ((if i.btn then p.1 + 1 else 0 : ℕ) : ℤ) then true
       else p.2.car_parked) := by
  simp only [background_tick, light_car, heating_car]
  split_ifs <;> rfl

/-- The poll loop never clears `car_parked`: once true it stays true for
the rest of the run. -/
theorem run_car_sticky (req : ℤ) (inputs : List SensorInput) :
    ∀ p : ℕ × SysState, p.2.car_parked = true →
      (backgroundRun req p inputs).2.car_parked = true := by
  induction inputs with
  | nil => intro p h; exact h
  | cons i rest ih =>
    intro p h
    simp only [backgroundRun, List.foldl_cons]
    apply ih
    rw [tick_car]
    split_ifs <;> first | rfl | exact h

/-- If the button readings start with `n` consecutive presses and the
counter needs only `n` more ticks, the run sets `car_parked`.  The
invariant hypothesis records that whenever the stored counter has
already reached the requirement, the flag is already set. -/
theorem run_car_of_startsWith (req : ℤ) (hreq : 1 ≤ req) :
    ∀ (n : ℕ) (inputs : List SensorInput) (p : ℕ × SysState),
      (req ≤ (p.1 : ℤ) → p.2.car_parked = true) →
      startsWithTrues n (inputs.map SensorInput.btn) = true →
      req ≤ (p.1 : ℤ) + n →
      (backgroundRun req p inputs).2.car_parked = true := by
  intro n
  induction n with
  | zero =>
    intro inputs p hinv hsw hle
    exact run_car_sticky req inputs p (hinv (by simpa using hle))
  | succ n ih =>
    intro inputs p hinv hsw hle
    cases inputs with
    | nil => simp [startsWithTrues] at hsw
    | cons i rest =>
      simp only [List.map_cons, startsWithTrues, Bool.and_eq_true] at hsw
      simp only [backgroundRun, List.foldl_cons]
      apply ih rest
      · intro hc
        rw [tick_car]
        rw [tick_counter] at hc
        rw [if_pos hc]
      · exact hsw.2
      · rw [tick_counter, if_pos hsw.1]
        push_cast at hle ⊢
        omega

/-- If the button readings contain a run of `req` consecutive presses,
the poll loop sets `car_parked`. -/
theorem run_car_of_contains (req : ℤ) (hreq : 1 ≤ req) :
    ∀ (inputs : List SensorInput) (p : ℕ × SysState),
      (req ≤ (p.1 : ℤ) → p.2.car_parked = true) →
      containsTrueRun req.toNat (inputs.map SensorInput.btn) = true →
      (backgroundRun req p inputs).2.car_parked = true := by
  intro inputs
  induction inputs with
  | nil =>
    intro p hinv hc
    exfalso
    simp only [List.map_nil, containsTrueRun, decide_eq_true_eq] at hc
    omega
  | cons i rest ih =>
    intro p hinv hc
    simp only [List.map_cons, containsTrueRun, Bool.or_eq_true] at hc
    rcases hc with hsw | hcr
    · exact run_car_of_startsWith req hreq req.toNat (i :: rest) p hinv
        (by simpa using hsw) (by omega)
    · simp only [backgroundRun, List.foldl_cons]
      apply ih
      · intro hcnt
        rw [tick_car]
        rw [tick_counter] at hcnt
        rw [if_pos hcnt]
      · exact hcr

/-- Every list contains the empty run. -/
theorem contains_zero (l : List Bool) : containsTrueRun 0 l = true := by
  cases l with
  | nil => rfl
  | cons b l => simp [containsTrueRun, startsWithTrues]

/-- A run in the tail is a run in the whole list. -/
theorem contains_of_tail (n : ℕ) (b : Bool) (l : List Bool)
    (h : containsTrueRun n l = true) : containsTrueRun n (b :: l) = true := by
  simp [containsTrueRun, h]

/-- A run survives prepending any block of presses. -/
theorem contains_of_drop_replicate (n c : ℕ) (l : List Bool)
    (h : containsTrueRun n l = true) :
    containsTrueRun n (List.replicate c true ++ l) = true := by
  induction c with
  | zero => simpa using h
  | succ c ih =>
    rw [List.replicate_succ, List.cons_append]
    exact contains_of_tail n true _ ih

/-- A block of at least `n` presses starts with `n` presses. -/
theorem startsWith_replicate (n : ℕ) :
    ∀ (c : ℕ) (l : List Bool), n ≤ c →
      startsWithTrues n (List.replicate c true ++ l) = true := by
  induction n with
  | zero => intro c l _; rfl
  | succ n ih =>
    intro c l h
    cases c with
    | zero => omega
    | succ c =>
      rw [List.replicate_succ, List.cons_append]
      simp only [startsWithTrues, Bool.true_and]
      exact ih c l (by omega)

/-- A block of at least `n` presses contains a run of `n`. -/
theorem contains_replicate (n c : ℕ) (l : List Bool) (h : n ≤ c) :
    containsTrueRun n (List.replicate c true ++ l) = true := by
  cases c with
  | zero =>
    have hn : n = 0 := by omega
    subst hn
    simpa using contains_zero l
  | succ c =>
    rw [List.replicate_succ, List.cons_append]
    simp only [containsTrueRun, Bool.or_eq_true]
    left
    rw [← List.cons_append, ← List.replicate_succ]
    exact startsWith_replicate n (c + 1) l h

/-- Shifting one press from the list into the press block. -/
theorem replicate_true_shift (c : ℕ) (l : List Bool) :
    List.replicate c true ++ true :: l = List.replicate (c + 1) true ++ l := by
  rw [List.replicate_succ', List.append_assoc]
  rfl

/-- Conversely, if the run set `car_parked`, either it was already set
or the button readings (prefixed by the presses the starting counter
already accumulated) contain a run of `req` consecutive presses. -/
theorem run_car_necessity (req : ℤ) (hreq : 1 ≤ req) :
    ∀ (inputs : List SensorInput) (p : ℕ × SysState),
      (backgroundRun req p inputs).2.car_parked = true →
      p.2.car_parked = true ∨
        containsTrueRun req.toNat
          (List.replicate p.1 true ++ inputs.map SensorInput.btn) = true := by
  intro inputs
  induction inputs with
  | nil => intro p h; exact Or.inl h
  | cons i rest ih =>
    intro p h
    simp only [backgroundRun, List.foldl_cons] at h
    simp only [List.map_cons]
    rcases ih (background_tick req p i).1 h with hcar | hcont
    · rw [tick_car] at hcar
      by_cases hbtn : i.btn = true
      · rw [hbtn] at hcar
        simp only [if_true] at hcar
        by_cases hcnt : req ≤ ((p.1 + 1 : ℕ) : ℤ)
        · right
          rw [hbtn, replicate_true_shift]
          exact contains_replicate req.toNat (p.1 + 1) _ (by omega)
        · rw [if_neg hcnt] at hcar
          exact Or.inl hcar
      · have hb : i.btn = false := by simpa using hbtn
        rw [hb] at hcar
        have hcnt : ¬req ≤ (((0 : ℕ) : ℤ)) := by simp; omega
        simp only [if_false, Bool.false_eq_true] at hcar
        rw [if_neg hcnt] at hcar
        exact Or.inl hcar
    · rw [tick_counter] at hcont
      right
      by_cases hbtn : i.btn = true
      · rw [hbtn] at hcont ⊢
        simp only [if_true] at hcont
        rw [replicate_true_shift]
        exact hcont
      · have hb : i.btn = false := by simpa using hbtn
        rw [hb] at hcont ⊢
        simp only [if_false, Bool.false_eq_true, List.replicate_zero,
          List.nil_append] at hcont
        exact contains_of_drop_replicate req.toNat p.1 _
          (contains_of_tail req.toNat false _ hcont)

/-- C3 (amended): with the required count computed as the code computes
it (`int(threshold / interval)` for a positive interval, with no
minimum-1 clamp; `1` only for a non-positive interval), and provided
that count is at least 1, the poll loop sets `car_parked` from the
initial state exactly when the button readings contain that many
consecutive presses with no intervening release; any single release
resets the counter to 0; at the shipped configuration the count is 10. -/
theorem carParked_run_characterization (req : ℤ) (hreq : 1 ≤ req)
    (inputs : List SensorInput) (p : ℕ × SysState) (i : SensorInput)
    (hb : i.btn = false) :
    ((backgroundRun req (0, initialLatest) inputs).2.car_parked = true ↔
      containsTrueRun req.toNat (inputs.map SensorInput.btn) = true) ∧
    (background_tick req p i).1.1 = 0 ∧
    required_button_count MAIN_POLL_INTERVAL = 10 := by
  refine ⟨⟨?_, ?_⟩, ?_, ?_⟩
  · intro h
    rcases run_car_necessity req hreq inputs (0, initialLatest) h with hcar | hcont
    · exact absurd hcar (by simp [initialLatest])
    · simpa using hcont
  · intro h
    refine run_car_of_contains req hreq inputs (0, initialLatest) ?_ h
    intro hc
    exfalso
    simp only [Nat.cast_zero] at hc
    omega
  · rw [tick_counter, hb]
    simp
  · norm_num [required_button_count, BUTTON_PRESSED_MIN_S, MAIN_POLL_INTERVAL]

/-- Witness for `carParked_run_characterization` at the shipped count of
10 and ten consecutive presses, with a released-button tick for the
reset conjunct. -/
theorem carParked_run_characterization_witness :
    ((backgroundRun 10 (0, initialLatest)
        (List.replicate 10 ⟨none, false, none, true, 0⟩)).2.car_parked = true ↔
      containsTrueRun (10 : ℤ).toNat
        ((List.replicate 10 (⟨none, false, none, true, (0 : ℚ)⟩ : SensorInput)).map
          SensorInput.btn) = true) ∧
    (background_tick 10 (0, initialLatest)
        ⟨none, false, none, false, 0⟩).1.1 = 0 ∧
    required_button_count MAIN_POLL_INTERVAL = 10 :=
  carParked_run_characterization 10 (by norm_num)
    (List.replicate 10 ⟨none, false, none, true, 0⟩) (0, initialLatest)
    ⟨none, false, none, false, 0⟩ rfl

/-- C3 counterexample: at a 3-second poll interval (a configuration the
spec itself deems acceptable) the code computes a required count of 0 —
not the claimed minimum of 1 — and a single released-button tick sets
`car_parked` even though no press was ever read, contradicting the claim
that fewer than the required (minimum 1) consecutive presses never set
it. -/
theorem carParked_claim_counterexample :
    required_button_count 3 = 0 ∧
    requiredPressCountClaim 3 = 1 ∧
    (backgroundRun (required_button_count 3) (0, initialLatest)
        [⟨none, false, none, false, 0⟩]).2.car_parked = true ∧
    containsTrueRun (requiredPressCountClaim 3).toNat
      (([⟨none, false, none, false, 0⟩] : List SensorInput).map
        SensorInput.btn) = false := by
  have h3 : required_button_count 3 = 0 := by
    norm_num [required_button_count, BUTTON_PRESSED_MIN_S]
  have h4 : requiredPressCountClaim 3 = 1 := by
    norm_num [requiredPressCountClaim, BUTTON_PRESSED_MIN_S]
  refine ⟨h3, h4, ?_, ?_⟩
  · rw [h3]
    decide
  · rw [h4]
    decide

/-- C4: `car_parked` is sticky-true under the poll loop — once set, no
sequence of sensor readings clears it; only the explicit car API command
can clear (body 1) or set (body 0) it. -/
theorem carParked_sticky (req : ℤ) (p : ℕ × SysState)
    (inputs : List SensorInput) (s : SysState)
    (h : p.2.car_parked = true) :
    (backgroundRun req p inputs).2.car_parked = true ∧
    (api_car 1 s).car_parked = false ∧
    (api_car 0 s).car_parked = true :=
  ⟨run_car_sticky req inputs p h, by simp [api_car], by simp [api_car]⟩

/-- Witness for `carParked_sticky`: a parked car survives a
released-button poll tick, and the API commands flip the flag. -/
theorem carParked_sticky_witness :
    (backgroundRun 10 (0, { initialLatest with car_parked := true })
        [⟨none, false, none, false, 0⟩]).2.car_parked = true ∧
    (api_car 1 initialLatest).car_parked = false ∧
    (api_car 0 initialLatest).car_parked = true :=
  carParked_sticky 10 (0, { initialLatest with car_parked := true })
    [⟨none, false, none, false, 0⟩] initialLatest rfl

end Domotica
